import Mathlib

/-!
Verification of the experience pipeline and training control loop of the
DQN driver (`dqn_main.cpp`): the epsilon schedule, the episode runner
(frame stacking, reward shaping, transition recording, learning trigger),
the evaluation routine, and the training orchestrator.

The episode runner is embedded as a fuel-indexed step function over an
explicit state.  Frames are kept in a frame store (a list indexed by
allocation order) and referenced by index, mirroring the shared-pointer
semantics of `FrameDataSp` in the source: `ObscureScreen` mutates the
stored frame in place, so every holder of the same reference observes the
mutation.  External collaborators (the ALE environment and the Caffe-backed
agent in `dqn.hpp`, which is not part of this repository snapshot) are
abstracted as function parameters.
-/

namespace DQN

/-- A raw observation of the environment screen, identified abstractly. -/
abbrev Screen := Nat

/-- Modelled from the spec: a Frame is the fixed-size normalized grid
produced by `dqn::PreprocessScreen` (external, `dqn.hpp`).  We record the
observation it came from and whether the centered obscuring mask of
`dqn::ObscureScreen` has been applied to it. -/
structure Frame where
  screen : Screen
  obscured : Bool
deriving DecidableEq, Repr, Inhabited

/-- Modelled from the spec: `PreprocessScreen` deterministically converts a
raw observation into a Frame; the obscuring mask has not been applied yet. -/
def PreprocessScreen (s : Screen) : Frame := ⟨s, false⟩

/-- Modelled from the spec: `ObscureScreen` zeroes a centered square region
of the frame in place; we track that the mask was applied. -/
def ObscureScreen (f : Frame) : Frame := ⟨f.screen, true⟩

/-- One step of interaction: `{source frame, action taken, shaped reward,
optional next frame}` (`dqn::Transition`).  Frames are store references. -/
structure Transition where
  frame : Nat
  action : Nat
  reward : ℤ
  next : Option Nat
deriving DecidableEq, Repr, Inhabited

/-- The environment collaborator (ALE), abstracted over its state type:
`game_over`, `lives`, `getScreen`, and `act` returning the raw score delta
of one emulation step together with the successor state.  ALE score deltas
(`reward_t`) are integers; the doubles accumulated from them in the source
therefore hold exact integer values, embedded here as `ℤ`. -/
structure EnvCfg (σ : Type) where
  game_over : σ → Bool
  lives : σ → ℤ
  getScreen : σ → Screen
  act : σ → Nat → ℤ × σ

/-- Configuration of one `PlayOneEpisode` run: the environment, the agent
action-selection oracle (`dqn.SelectAction`, external), and the flags read
by the loop.  `memory_size` is the replay occupancy reported by
`dqn.memory_size()`, constant during an episode since episodes are admitted
to replay memory only at episode end. -/
structure RunCfg (σ : Type) where
  env : EnvCfg σ
  selectAction : List Frame → ℚ → Bool → Nat
  obscure_size : ℤ
  frames_per_timestep : Nat
  skip_frame : Nat
  update_frequency : Nat
  memory_threshold : Nat
  memory_size : Nat

/-- The no-op action `PLAYER_A_NOOP`. -/
def PLAYER_A_NOOP : Nat := 0

/-- Allocate a fresh frame in the store, returning the store and the new
reference (shared-pointer creation). -/
def allocFrame (store : List Frame) (f : Frame) : List Frame × Nat :=
  (store ++ [f], store.length)

/-- In-place mutation of the frame store at a reference, applying the
obscuring mask (the effect of `dqn.ObscureScreen(ref, size)` on the shared
frame data). -/
def obscureAt : List Frame → Nat → List Frame
  | [], _ => []
  | f :: fs, 0 => ObscureScreen f :: fs
  | f :: fs, r + 1 => f :: obscureAt fs r

/-- The deque-trimming loop of lines 108-110:
`while (past_frames.size() > FLAGS_frames_per_timestep) pop_front()`. -/
def trimStack (W : Nat) : List Nat → List Nat
  | [] => []
  | x :: xs => if xs.length + 1 > W then trimStack W xs else x :: xs

/-- The frame-skip acting loop of lines 120-122: apply the action for
`skip_frame + 1` consecutive emulation steps, summing raw score deltas and
stopping early on game over. -/
def actRepeat {σ : Type} (E : EnvCfg σ) (a : Nat) : Nat → σ → ℤ × σ
  | 0, s => (0, s)
  | n + 1, s =>
    if E.game_over s then (0, s)
    else
      let d := (E.act s a).1
      let s1 := (E.act s a).2
      let rest := actRepeat E a n s1
      (d + rest.1, rest.2)

/-- Reward normalization of lines 126-127:
`reward = immediate_score == 0 ? 0 : immediate_score / abs(immediate_score)`.
The quotient of a non-zero integer by its absolute value is exactly 1 or -1
in floating point and in `ℤ` alike. -/
def shapeReward (immediate_score : ℤ) : ℤ :=
  if immediate_score = 0 then 0 else immediate_score / |immediate_score|

/-- The life-loss override of lines 128-131: a drop of the life count below
the tracked value forces the reward to -1 and updates the tracked value. -/
def applyLifeLoss (reward : ℤ) (lives remaining_lives : ℤ) : ℤ × ℤ :=
  if lives < remaining_lives then (-1, lives) else (reward, remaining_lives)

/-- The mutable state of the `PlayOneEpisode` loop, together with logs of
the observable events needed to state the claims: `updatesAt` records the
loop counters at which `dqn.UpdateRandom()` was invoked, `stacksLog`
records, at each point of action selection, the frame stack and the list of
all references pushed so far, and `inputsLog` records the frame values
passed to `SelectAction`. -/
structure EpState (σ : Type) where
  env : σ
  store : List Frame
  past_frames : List Nat
  episode : List Transition
  current_frame : Nat
  total_score : ℤ
  remaining_lives : ℤ
  first_action : Bool
  frame : Nat
  updatesAt : List Nat
  stacksLog : List (List Nat × List Nat)
  pushed : List Nat
  inputsLog : List (List Frame)
deriving DecidableEq, Repr, Inhabited

/-- Lines 88-94: when not updating, refresh the current frame from a fresh
observation (preprocess, optionally obscure); when updating, the next frame
was already captured by the previous iteration.  Returns the frame store
and the reference of the current frame. -/
def refreshFrame {σ : Type} (cfg : RunCfg σ) (update : Bool) (st : EpState σ) :
    List Frame × Nat :=
  if !update then
    let a1 := allocFrame st.store (PreprocessScreen (cfg.env.getScreen st.env))
    (if cfg.obscure_size > 0 then obscureAt a1.1 a1.2 else a1.1, a1.2)
  else (st.store, st.current_frame)

/-- The frame store at the point of action selection. -/
def storeOf {σ : Type} (cfg : RunCfg σ) (update : Bool) (st : EpState σ) :
    List Frame :=
  (refreshFrame cfg update st).1

/-- The reference of the current frame pushed at line 95. -/
def curOf {σ : Type} (cfg : RunCfg σ) (update : Bool) (st : EpState σ) : Nat :=
  (refreshFrame cfg update st).2

/-- The frame stack at the point of action selection: push the current
frame (line 95) and trim to the window size (lines 108-110). -/
def stackOf {σ : Type} (cfg : RunCfg σ) (update : Bool) (st : EpState σ) :
    List Nat :=
  trimStack cfg.frames_per_timestep (st.past_frames ++ [curOf cfg update st])

/-- Lines 112-118: action selection.  With a full window, ask the agent
(first component), clear `first_action` (second component) and log the
input frame values handed to `SelectAction` (third component); otherwise
use the no-op action and leave the flag and the log unchanged. -/
def selectStep {σ : Type} (cfg : RunCfg σ) (epsilon : ℚ) (store : List Frame)
    (past1 : List Nat) (first_action : Bool) (inputsLog : List (List Frame)) :
    Nat × Bool × List (List Frame) :=
  if past1.length = cfg.frames_per_timestep then
    let input_frames := past1.map (fun r => store.getD r default)
    (cfg.selectAction input_frames epsilon (!first_action), false,
      inputsLog ++ [input_frames])
  else (PLAYER_A_NOOP, first_action, inputsLog)

/-- The action selection of this iteration. -/
def selOf {σ : Type} (cfg : RunCfg σ) (epsilon : ℚ) (update : Bool)
    (st : EpState σ) : Nat × Bool × List (List Frame) :=
  selectStep cfg epsilon (storeOf cfg update st) (stackOf cfg update st)
    st.first_action st.inputsLog

/-- The frame-skip acting of lines 119-122: raw score delta sum and the
environment state after acting. -/
def actedOf {σ : Type} (cfg : RunCfg σ) (epsilon : ℚ) (update : Bool)
    (st : EpState σ) : ℤ × σ :=
  actRepeat cfg.env (selOf cfg epsilon update st).1 (cfg.skip_frame + 1) st.env

/-- The shaped reward and updated tracked life count of lines 126-131. -/
def rewardOf {σ : Type} (cfg : RunCfg σ) (epsilon : ℚ) (update : Bool)
    (st : EpState σ) : ℤ × ℤ :=
  applyLifeLoss (shapeReward (actedOf cfg epsilon update st).1)
    (cfg.env.lives (actedOf cfg epsilon update st).2) st.remaining_lives

/-- Line 136: allocation of the next frame (post-action observation) in
update mode. -/
def allocNextOf {σ : Type} (cfg : RunCfg σ) (epsilon : ℚ) (update : Bool)
    (st : EpState σ) : List Frame × Nat :=
  allocFrame (storeOf cfg update st)
    (PreprocessScreen (cfg.env.getScreen (actedOf cfg epsilon update st).2))

/-- Lines 137-139: the store after the obscuring call of update mode.  The
source passes `current_frame` (not `next_frame`) to `ObscureScreen`, so the
mask lands on the current frame reference. -/
def storeAfterUpdateOf {σ : Type} (cfg : RunCfg σ) (epsilon : ℚ)
    (update : Bool) (st : EpState σ) : List Frame :=
  if cfg.obscure_size > 0 then
    obscureAt (allocNextOf cfg epsilon update st).1 (curOf cfg update st)
  else (allocNextOf cfg epsilon update st).1

/-- Lines 141-143: the transition recorded this iteration; the next frame
is absent exactly when the environment now reports game over. -/
def transitionOf {σ : Type} (cfg : RunCfg σ) (epsilon : ℚ) (update : Bool)
    (st : EpState σ) : Transition :=
  if cfg.env.game_over (actedOf cfg epsilon update st).2 then
    ⟨curOf cfg update st, (selOf cfg epsilon update st).1,
      (rewardOf cfg epsilon update st).1, none⟩
  else
    ⟨curOf cfg update st, (selOf cfg epsilon update st).1,
      (rewardOf cfg epsilon update st).1,
      some (allocNextOf cfg epsilon update st).2⟩

/-- One iteration of the `for (auto frame = 0; !ale.game_over(); ++frame)`
body of `PlayOneEpisode` (lines 87-151), composed from the named pieces
above.  In update mode the transition is appended, the learning trigger of
lines 145-148 is checked, and the current-frame pointer advances to the
next frame; otherwise the episode and the update log are untouched. -/
def stepBody {σ : Type} (cfg : RunCfg σ) (epsilon : ℚ) (update : Bool)
    (st : EpState σ) : EpState σ :=
  if update then
    { env := (actedOf cfg epsilon update st).2,
      store := storeAfterUpdateOf cfg epsilon update st,
      past_frames := stackOf cfg update st,
      episode := st.episode ++ [transitionOf cfg epsilon update st],
      current_frame := (allocNextOf cfg epsilon update st).2,
      total_score := st.total_score + (actedOf cfg epsilon update st).1,
      remaining_lives := (rewardOf cfg epsilon update st).2,
      first_action := (selOf cfg epsilon update st).2.1,
      frame := st.frame + 1,
      updatesAt :=
        if cfg.memory_size > cfg.memory_threshold ∧
            st.frame % cfg.update_frequency = 0
        then st.updatesAt ++ [st.frame] else st.updatesAt,
      stacksLog := st.stacksLog ++ [(stackOf cfg update st, st.pushed ++ [curOf cfg update st])],
      pushed := st.pushed ++ [curOf cfg update st],
      inputsLog := (selOf cfg epsilon update st).2.2 }
  else
    { env := (actedOf cfg epsilon update st).2,
      store := storeOf cfg update st,
      past_frames := stackOf cfg update st,
      episode := st.episode,
      current_frame := curOf cfg update st,
      total_score := st.total_score + (actedOf cfg epsilon update st).1,
      remaining_lives := (rewardOf cfg epsilon update st).2,
      first_action := (selOf cfg epsilon update st).2.1,
      frame := st.frame + 1,
      updatesAt := st.updatesAt,
      stacksLog := st.stacksLog ++ [(stackOf cfg update st, st.pushed ++ [curOf cfg update st])],
      pushed := st.pushed ++ [curOf cfg update st],
      inputsLog := (selOf cfg epsilon update st).2.2 }

/-- The episode loop, fuel-indexed: returns the final state when the
environment reports game over within the fuel bound. -/
def runLoop {σ : Type} (cfg : RunCfg σ) (epsilon : ℚ) (update : Bool) :
    Nat → EpState σ → Option (EpState σ)
  | 0, _ => none
  | fuel + 1, st =>
    if cfg.env.game_over st.env then some st
    else runLoop cfg epsilon update fuel (stepBody cfg epsilon update st)

/-- The state at entry to the loop (lines 76-86): capture the initial life
count, preprocess and optionally obscure the first frame. -/
def initState {σ : Type} (cfg : RunCfg σ) (s0 : σ) : EpState σ :=
  let f := PreprocessScreen (cfg.env.getScreen s0)
  let a1 := allocFrame [] f
  let store2 := if cfg.obscure_size > 0 then obscureAt a1.1 a1.2 else a1.1
  { env := s0, store := store2, past_frames := [], episode := [],
    current_frame := a1.2, total_score := 0,
    remaining_lives := cfg.env.lives s0, first_action := true, frame := 0,
    updatesAt := [], stacksLog := [], pushed := [], inputsLog := [] }

/-- `PlayOneEpisode` (lines 74-157).  The `CHECK(!ale.game_over())`
precondition is modelled as returning `none`; `none` is also returned when
the fuel bound is exhausted before the environment terminates. -/
def PlayOneEpisode {σ : Type} (cfg : RunCfg σ) (s0 : σ) (epsilon : ℚ)
    (update : Bool) (fuel : Nat) : Option (EpState σ) :=
  if cfg.env.game_over s0 then none
  else runLoop cfg epsilon update fuel (initState cfg s0)

/-- `CalculateEpsilon` (lines 48-54), with `FLAGS_explore` and
`FLAGS_epsilon` as parameters; iteration counts are non-negative. -/
def CalculateEpsilon (explore : Nat) (epsilonFinal : ℚ) (iter : Nat) : ℚ :=
  if iter < explore then
    1 - (1 - epsilonFinal) * ((iter : ℚ) / (explore : ℚ))
  else epsilonFinal

/-- What `Evaluate` computes and logs: the list of episode scores gathered,
the reported average, and the quantity under the square root at line 176
(`stddev` is its square root; the root itself lives in `cmath` and is kept
outside the rational model). -/
structure EvalReport where
  scores : List ℤ
  avg_score : ℚ
  stddevSq : ℚ
deriving DecidableEq, Repr, Inhabited

/-- `Evaluate` (lines 162-179): pushes the score of exactly one
`PlayOneEpisode` run with updates disabled (the parallel variant is
commented out in the source), averages over `scores.size()`, and divides
the squared-deviation sum by `FLAGS_repeat_games - 1`. -/
def Evaluate {σ : Type} (cfg : RunCfg σ) (s0 : σ)
    (evaluate_with_epsilon : ℚ) (repeat_games : ℤ) (fuel : Nat) :
    Option EvalReport :=
  match PlayOneEpisode cfg s0 evaluate_with_epsilon false fuel with
  | none => none
  | some st =>
    let scores : List ℤ := [st.total_score]
    let total_score : ℚ := scores.foldl (fun a b => a + (b : ℚ)) 0
    let avg_score := total_score / (scores.length : ℚ)
    let sq : ℚ := scores.foldl
      (fun acc s => acc + ((s : ℚ) - avg_score) * ((s : ℚ) - avg_score)) 0
    some ⟨scores, avg_score, sq / ((repeat_games : ℚ) - 1)⟩

/-- Configuration of the training loop of `main` (lines 308-342).  The
episode runner and the evaluator are abstracted: `episodeScore k` is the
raw score of the k-th training episode, `episodeIters k` the number of
solver iterations its learning updates add to `dqn.current_iteration()`
(each update advances the external solver, so the counter is
non-decreasing), and `evalScore n` the aggregate returned by the n-th call
to `Evaluate`. -/
structure OrchCfg where
  max_iter : Nat
  explore : Nat
  evaluate_freq : Nat
  episodeScore : Nat → ℚ
  episodeIters : Nat → Nat
  evalScore : Nat → ℚ

/-- The orchestrator state: `iter` is `dqn.current_iteration()`,
`evalsAt` logs the iteration at which each in-loop evaluation ran,
`hiSnapshots` logs the scores tagged on best-score checkpoints, and
`rollingSnapshots` counts the unconditional rolling checkpoints. -/
structure OrchState where
  iter : Nat
  last_eval_iter : Nat
  episode : Nat
  evalCount : Nat
  best_score : ℚ
  evalsAt : List Nat
  hiSnapshots : List ℚ
  rollingSnapshots : Nat
deriving DecidableEq, Repr, Inhabited

/-- One iteration of the `while (dqn.current_iteration() < max_iter)` body
(lines 315-337): play an episode, then evaluate when the episode score
beats the best after the exploration horizon, or when `evaluate_freq`
iterations have passed since the last evaluation. -/
def orchStep (cfg : OrchCfg) (st : OrchState) : OrchState :=
  let score := cfg.episodeScore st.episode
  let iter := st.iter + cfg.episodeIters st.episode
  let st1 : OrchState := { st with iter := iter, episode := st.episode + 1 }
  if (score > st1.best_score ∧ iter ≥ cfg.explore)
      ∨ iter ≥ st1.last_eval_iter + cfg.evaluate_freq then
    let avg_score := cfg.evalScore st1.evalCount
    let st2 : OrchState :=
      { st1 with evalCount := st1.evalCount + 1, evalsAt := st1.evalsAt ++ [iter] }
    let st3 : OrchState :=
      if avg_score > st2.best_score then
        { st2 with best_score := avg_score, hiSnapshots := st2.hiSnapshots ++ [avg_score] }
      else st2
    { st3 with rollingSnapshots := st3.rollingSnapshots + 1, last_eval_iter := iter }
  else st1

/-- The training loop plus the post-loop final evaluation (lines 315-342).
Returns the final state and whether the final evaluation-and-checkpoint
block at lines 339-342 executed. -/
def orchRun (cfg : OrchCfg) : Nat → OrchState → Option (OrchState × Bool)
  | 0, _ => none
  | fuel + 1, st =>
    if st.iter < cfg.max_iter then orchRun cfg fuel (orchStep cfg st)
    else
      if st.iter ≥ st.last_eval_iter then
        some ({ st with evalCount := st.evalCount + 1, rollingSnapshots := st.rollingSnapshots + 1 }, true)
      else some (st, false)

/-- The orchestrator state at loop entry (lines 308-314): `last_eval_iter`
and the episode counter start at 0; the iteration counter and the best
score may have been restored from a snapshot. -/
def orchInit (iter0 : Nat) (best0 : ℚ) : OrchState :=
  { iter := iter0, last_eval_iter := 0, episode := 0, evalCount := 0,
    best_score := best0, evalsAt := [], hiSnapshots := [],
    rollingSnapshots := 0 }

/-! ## Concrete demonstration environments and configurations

Tiny deterministic instances used to evaluate the embedded code on
explicit inputs: the environment state counts emulation steps. -/

/-- An environment that ends after two emulation steps with zero score
deltas and a constant life count. -/
def demoEnv : EnvCfg Nat :=
  { game_over := fun t => decide (2 ≤ t),
    lives := fun _ => 3,
    getScreen := fun t => t,
    act := fun t _ => (0, t + 1) }

/-- Update-mode run configuration with obscuring enabled
(`obscure_size = 1`), window size 1, no frame skip. -/
def c4cfg : RunCfg Nat :=
  { env := demoEnv,
    selectAction := fun _ _ _ => 0,
    obscure_size := 1,
    frames_per_timestep := 1,
    skip_frame := 0,
    update_frequency := 1,
    memory_threshold := 0,
    memory_size := 0 }

/-- An environment that loses a life after the first act (life count drops
from 3 to 2) while paying a score delta of +5 on every act. -/
def c2env : EnvCfg Nat :=
  { game_over := fun t => decide (2 ≤ t),
    lives := fun t => if 1 ≤ t then 2 else 3,
    getScreen := fun t => t,
    act := fun t _ => (5, t + 1) }

/-- Update-mode run configuration over `c2env`. -/
def c2cfg : RunCfg Nat :=
  { env := c2env,
    selectAction := fun _ _ _ => 0,
    obscure_size := 0,
    frames_per_timestep := 1,
    skip_frame := 0,
    update_frequency := 1,
    memory_threshold := 0,
    memory_size := 0 }

/-- The result of the two-step `c2cfg` episode. -/
def c2res : EpState Nat := (PlayOneEpisode c2cfg 0 0 true 5).getD default

/-- A three-step environment with zero score deltas. -/
def c8env : EnvCfg Nat :=
  { game_over := fun t => decide (3 ≤ t),
    lives := fun _ => 3,
    getScreen := fun t => t,
    act := fun t _ => (0, t + 1) }

/-- Update-mode run with occupied replay memory (1 > threshold 0), update
frequency 2 and window size 2. -/
def c8cfg : RunCfg Nat :=
  { env := c8env,
    selectAction := fun _ _ _ => 0,
    obscure_size := 0,
    frames_per_timestep := 2,
    skip_frame := 0,
    update_frequency := 2,
    memory_threshold := 0,
    memory_size := 1 }

/-- The result of the three-step `c8cfg` episode. -/
def c8res : EpState Nat := (PlayOneEpisode c8cfg 0 0 true 9).getD default

/-- An environment whose first (and only) episode scores 10: +10 on the
first act, 0 afterwards, game over after two acts. -/
def c5env : EnvCfg Nat :=
  { game_over := fun t => decide (2 ≤ t),
    lives := fun _ => 3,
    getScreen := fun t => t,
    act := fun t _ => (if t = 0 then (10 : ℤ) else 0, t + 1) }

/-- Evaluation-mode run configuration over `c5env`. -/
def c5cfg : RunCfg Nat :=
  { env := c5env,
    selectAction := fun _ _ _ => 0,
    obscure_size := 0,
    frames_per_timestep := 1,
    skip_frame := 0,
    update_frequency := 1,
    memory_threshold := 0,
    memory_size := 0 }

/-- The single episode played by `Evaluate` over `c5cfg`. -/
def c5run : EpState Nat := (PlayOneEpisode c5cfg 0 (1/20) false 9).getD default

/-- An environment paying +7 per act, terminating after two acts. -/
def c10env : EnvCfg Nat :=
  { game_over := fun t => decide (2 ≤ t),
    lives := fun _ => 3,
    getScreen := fun t => t,
    act := fun t _ => (7, t + 1) }

/-- Evaluation-mode run configuration over `c10env`. -/
def c10cfg : RunCfg Nat :=
  { env := c10env,
    selectAction := fun _ _ _ => 0,
    obscure_size := 0,
    frames_per_timestep := 1,
    skip_frame := 0,
    update_frequency := 1,
    memory_threshold := 0,
    memory_size := 0 }

/-- The single episode played by `Evaluate` over `c10cfg`. -/
def c10run : EpState Nat := (PlayOneEpisode c10cfg 0 (1/20) false 9).getD default

/-- Orchestrator configuration whose single episode advances the iteration
counter exactly to the budget, with the periodic trigger firing there. -/
def c6cfg : OrchCfg :=
  { max_iter := 10, explore := 0, evaluate_freq := 5,
    episodeScore := fun _ => 0, episodeIters := fun _ => 10,
    evalScore := fun _ => 0 }

/-- The final state and final-evaluation flag of the `c6cfg` run. -/
def c6res : OrchState × Bool := (orchRun c6cfg 3 (orchInit 0 0)).getD default

/-- Orchestrator configuration where an episode score beats the best after
the exploration horizon and the evaluation aggregate also beats the best. -/
def c7cfg : OrchCfg :=
  { max_iter := 100, explore := 0, evaluate_freq := 5,
    episodeScore := fun _ => 3, episodeIters := fun _ => 1,
    evalScore := fun _ => 2 }

/-- A mid-training orchestrator state at iteration 4. -/
def c7st : OrchState := orchInit 4 0

/-! ## Helper lemmas for the epsilon schedule -/

theorem calcEps_le_one (explore : Nat) (ef : ℚ) (hef : ef ≤ 1) (i : Nat) :
    CalculateEpsilon explore ef i ≤ 1 := by
  unfold CalculateEpsilon
  split
  · rename_i h
    have he : (0 : ℚ) < (explore : ℚ) := by
      exact_mod_cast Nat.pos_of_ne_zero (by omega)
    have hq0 : (0 : ℚ) ≤ (i : ℚ) / (explore : ℚ) := by positivity
    nlinarith
  · exact hef

theorem calcEps_ge (explore : Nat) (ef : ℚ) (hef : ef ≤ 1) (i : Nat) :
    ef ≤ CalculateEpsilon explore ef i := by
  unfold CalculateEpsilon
  split
  · rename_i h
    have he : (0 : ℚ) < (explore : ℚ) := by
      exact_mod_cast Nat.pos_of_ne_zero (by omega)
    have hq1 : (i : ℚ) / (explore : ℚ) ≤ 1 := by
      rw [div_le_one he]
      exact_mod_cast le_of_lt h
    have hq0 : (0 : ℚ) ≤ (i : ℚ) / (explore : ℚ) := by positivity
    nlinarith
  · exact le_refl ef

theorem calcEps_anti (explore : Nat) (ef : ℚ) (hef : ef ≤ 1) (i j : Nat)
    (hij : i ≤ j) :
    CalculateEpsilon explore ef j ≤ CalculateEpsilon explore ef i := by
  by_cases hj : j < explore
  · have hi : i < explore := lt_of_le_of_lt hij hj
    unfold CalculateEpsilon
    rw [if_pos hi, if_pos hj]
    have he : (0 : ℚ) < (explore : ℚ) := by
      exact_mod_cast Nat.pos_of_ne_zero (by omega)
    have hq : (i : ℚ) / (explore : ℚ) ≤ (j : ℚ) / (explore : ℚ) := by
      gcongr
    nlinarith
  · have hj2 : CalculateEpsilon explore ef j = ef := by
      unfold CalculateEpsilon
      rw [if_neg hj]
    rw [hj2]
    exact calcEps_ge explore ef hef i

/-- C1: for every non-negative iteration i, the exploration schedule
`CalculateEpsilon(i)` is monotonically non-increasing in i, lies within
`[epsilonFinal, 1.0]`, equals `epsilonFinal` exactly for every
`i >= exploreSteps`, and when `exploreSteps == 0` it equals `epsilonFinal`
for every i without dividing by zero; in particular, with
`exploreSteps = 1000000` and `epsilonFinal = 0.1`,
`CalculateEpsilon(500000) = 0.55`.  (The hypothesis `epsilonFinal ≤ 1`
reflects that the final epsilon is a probability below the starting value
1.0.) -/
theorem c1_epsilon_schedule (explore : Nat) (ef : ℚ) (hef : ef ≤ 1)
    (i j : Nat) (hij : i ≤ j) :
    CalculateEpsilon explore ef j ≤ CalculateEpsilon explore ef i ∧
    ef ≤ CalculateEpsilon explore ef i ∧
    CalculateEpsilon explore ef i ≤ 1 ∧
    (explore ≤ i → CalculateEpsilon explore ef i = ef) ∧
    (explore = 0 → CalculateEpsilon explore ef i = ef) ∧
    CalculateEpsilon 1000000 (1/10) 500000 = 11/20 := by
  refine ⟨calcEps_anti explore ef hef i j hij, calcEps_ge explore ef hef i,
    calcEps_le_one explore ef hef i, ?_, ?_, ?_⟩
  · intro h
    unfold CalculateEpsilon
    rw [if_neg (not_lt.mpr h)]
  · intro h
    subst h
    unfold CalculateEpsilon
    rw [if_neg (by omega)]
  · simp only [CalculateEpsilon]
    norm_num

/-- Witness for C1 at `explore = 4`, `epsilonFinal = 1/10`, `i = 3`,
`j = 5`. -/
theorem c1_epsilon_schedule_witness :
    ((1 : ℚ)/10 ≤ 1 ∧ (3 : Nat) ≤ 5) ∧
    (CalculateEpsilon 4 (1/10) 5 ≤ CalculateEpsilon 4 (1/10) 3 ∧
     1/10 ≤ CalculateEpsilon 4 (1/10) 3 ∧
     CalculateEpsilon 4 (1/10) 3 ≤ 1 ∧
     (4 ≤ 3 → CalculateEpsilon 4 (1/10) 3 = 1/10) ∧
     ((4 : Nat) = 0 → CalculateEpsilon 4 (1/10) 3 = 1/10) ∧
     CalculateEpsilon 1000000 (1/10) 500000 = 11/20) :=
  ⟨⟨by norm_num, by norm_num⟩,
    c1_epsilon_schedule 4 (1/10) (by norm_num) 3 5 (by norm_num)⟩

/-! ## Generic loop-invariant machinery for the episode runner -/

/-- An invariant preserved by every non-terminal step holds at the final
state of the loop, which is reached exactly when the environment reports
game over. -/
theorem runLoop_inv {σ : Type} (cfg : RunCfg σ) (eps : ℚ) (upd : Bool)
    (Inv : EpState σ → Prop)
    (hstep : ∀ st, Inv st → cfg.env.game_over st.env = false →
      Inv (stepBody cfg eps upd st)) :
    ∀ (fuel : Nat) (st r : EpState σ), Inv st →
      runLoop cfg eps upd fuel st = some r →
      Inv r ∧ cfg.env.game_over r.env = true := by
  intro fuel
  induction fuel with
  | zero => intro st r _ h; exact absurd h (by simp [runLoop])
  | succ n ih =>
    intro st r hInv h
    rw [runLoop] at h
    split at h
    · rename_i hg
      cases h
      exact ⟨hInv, hg⟩
    · rename_i hg
      exact ih _ r (hstep st hInv (by simpa using hg)) h

/-- Invariant rule for a whole `PlayOneEpisode` run. -/
theorem playOneEpisode_inv {σ : Type} (cfg : RunCfg σ) (s0 : σ) (eps : ℚ)
    (upd : Bool) (fuel : Nat) (r : EpState σ)
    (Inv : EpState σ → Prop)
    (hinit : cfg.env.game_over s0 = false → Inv (initState cfg s0))
    (hstep : ∀ st, Inv st → cfg.env.game_over st.env = false →
      Inv (stepBody cfg eps upd st))
    (h : PlayOneEpisode cfg s0 eps upd fuel = some r) :
    Inv r ∧ cfg.env.game_over r.env = true := by
  rw [PlayOneEpisode] at h
  split at h
  · exact absurd h (by simp)
  · rename_i hg
    exact runLoop_inv cfg eps upd Inv hstep fuel _ r
      (hinit (by simpa using hg)) h

/-! ## Projection lemmas for one loop iteration -/

theorem stepBody_frame {σ : Type} (cfg : RunCfg σ) (eps : ℚ) (upd : Bool)
    (st : EpState σ) : (stepBody cfg eps upd st).frame = st.frame + 1 := by
  cases upd <;> rfl

theorem stepBody_true_episode {σ : Type} (cfg : RunCfg σ) (eps : ℚ)
    (st : EpState σ) :
    (stepBody cfg eps true st).episode =
      st.episode ++ [transitionOf cfg eps true st] := rfl

theorem stepBody_false_episode {σ : Type} (cfg : RunCfg σ) (eps : ℚ)
    (st : EpState σ) :
    (stepBody cfg eps false st).episode = st.episode := rfl

theorem stepBody_env {σ : Type} (cfg : RunCfg σ) (eps : ℚ) (upd : Bool)
    (st : EpState σ) :
    (stepBody cfg eps upd st).env = (actedOf cfg eps upd st).2 := by
  cases upd <;> rfl

theorem stepBody_true_updatesAt {σ : Type} (cfg : RunCfg σ) (eps : ℚ)
    (st : EpState σ) :
    (stepBody cfg eps true st).updatesAt =
      (if cfg.memory_size > cfg.memory_threshold ∧
          st.frame % cfg.update_frequency = 0
       then st.updatesAt ++ [st.frame] else st.updatesAt) := rfl

theorem stepBody_false_updatesAt {σ : Type} (cfg : RunCfg σ) (eps : ℚ)
    (st : EpState σ) :
    (stepBody cfg eps false st).updatesAt = st.updatesAt := rfl

theorem stepBody_pushed {σ : Type} (cfg : RunCfg σ) (eps : ℚ) (upd : Bool)
    (st : EpState σ) :
    (stepBody cfg eps upd st).pushed = st.pushed ++ [curOf cfg upd st] := by
  cases upd <;> rfl

theorem stepBody_past_frames {σ : Type} (cfg : RunCfg σ) (eps : ℚ) (upd : Bool)
    (st : EpState σ) :
    (stepBody cfg eps upd st).past_frames = stackOf cfg upd st := by
  cases upd <;> rfl

theorem stepBody_stacksLog {σ : Type} (cfg : RunCfg σ) (eps : ℚ) (upd : Bool)
    (st : EpState σ) :
    (stepBody cfg eps upd st).stacksLog =
      st.stacksLog ++ [(stackOf cfg upd st, st.pushed ++ [curOf cfg upd st])] := by
  cases upd <;> rfl

theorem transitionOf_reward {σ : Type} (cfg : RunCfg σ) (eps : ℚ) (upd : Bool)
    (st : EpState σ) :
    (transitionOf cfg eps upd st).reward = (rewardOf cfg eps upd st).1 := by
  unfold transitionOf
  split <;> rfl

theorem transitionOf_next_none {σ : Type} (cfg : RunCfg σ) (eps : ℚ)
    (upd : Bool) (st : EpState σ) :
    ((transitionOf cfg eps upd st).next = none ↔
      cfg.env.game_over (actedOf cfg eps upd st).2 = true) := by
  unfold transitionOf
  split
  · rename_i h
    simp [h]
  · rename_i h
    simp [h]

/-! ## Reward shaping lemmas -/

theorem shapeReward_mem (s : ℤ) :
    shapeReward s = -1 ∨ shapeReward s = 0 ∨ shapeReward s = 1 := by
  unfold shapeReward
  split
  · right; left; rfl
  · rename_i h
    rcases lt_trichotomy s 0 with hlt | heq | hgt
    · left
      rw [abs_of_neg hlt, Int.ediv_neg, Int.ediv_self h]
    · exact absurd heq h
    · right; right
      rw [abs_of_pos hgt, Int.ediv_self h]

theorem rewardOf_mem {σ : Type} (cfg : RunCfg σ) (eps : ℚ) (upd : Bool)
    (st : EpState σ) :
    (rewardOf cfg eps upd st).1 = -1 ∨ (rewardOf cfg eps upd st).1 = 0 ∨
      (rewardOf cfg eps upd st).1 = 1 := by
  unfold rewardOf applyLifeLoss
  split
  · left; rfl
  · exact shapeReward_mem _

/-- C2: in every step of `PlayOneEpisode`, the shaped reward computed from
the summed raw score delta is one of -1, 0, +1 (the sign of the summed
delta), and whenever the observed life count drops below the tracked
remaining-lives value, the shaped reward for that step equals -1 regardless
of the raw score delta, with the tracked life count updated to the new
value.  Stated as: every transition recorded by a completed run carries a
reward in the range; the per-step reward computation `rewardOf` (invoked by
`stepBody` at every iteration) always lands in the range; a life drop
forces the pair (-1, new lives); without a life drop the reward is the sign
of the summed delta and the tracked value is unchanged. -/
theorem c2_shaped_reward {σ : Type} (cfg : RunCfg σ) (s0 : σ) (eps : ℚ)
    (update : Bool) (fuel : Nat) (res : EpState σ)
    (hrun : PlayOneEpisode cfg s0 eps update fuel = some res)
    (st : EpState σ) (s : ℤ) :
    (∀ t ∈ res.episode, t.reward = -1 ∨ t.reward = 0 ∨ t.reward = 1) ∧
    ((rewardOf cfg eps update st).1 = -1 ∨ (rewardOf cfg eps update st).1 = 0 ∨
      (rewardOf cfg eps update st).1 = 1) ∧
    (cfg.env.lives (actedOf cfg eps update st).2 < st.remaining_lives →
      rewardOf cfg eps update st =
        (-1, cfg.env.lives (actedOf cfg eps update st).2)) ∧
    (¬ cfg.env.lives (actedOf cfg eps update st).2 < st.remaining_lives →
      rewardOf cfg eps update st =
        (shapeReward (actedOf cfg eps update st).1, st.remaining_lives)) ∧
    ((0 < s → shapeReward s = 1) ∧ (s < 0 → shapeReward s = -1) ∧
      (s = 0 → shapeReward s = 0)) := by
  refine ⟨?_, rewardOf_mem cfg eps update st, ?_, ?_, ?_, ?_, ?_⟩
  · have h := playOneEpisode_inv cfg s0 eps update fuel res
      (fun st2 => ∀ t ∈ st2.episode, t.reward = -1 ∨ t.reward = 0 ∨ t.reward = 1)
      (by intro _; simp [initState])
      (by
        intro st2 hInv hg
        cases update
        · rw [stepBody_false_episode]; exact hInv
        · rw [stepBody_true_episode]
          intro t ht
          rcases List.mem_append.mp ht with h1 | h1
          · exact hInv t h1
          · have ht2 : t = transitionOf cfg eps true st2 := by simpa using h1
            rw [ht2, transitionOf_reward]
            exact rewardOf_mem cfg eps true st2)
      hrun
    exact h.1
  · intro h
    unfold rewardOf applyLifeLoss
    rw [if_pos h]
  · intro h
    unfold rewardOf applyLifeLoss
    rw [if_neg h]
  · intro h
    unfold shapeReward
    rw [if_neg (ne_of_gt h), abs_of_pos h, Int.ediv_self (ne_of_gt h)]
  · intro h
    unfold shapeReward
    rw [if_neg (ne_of_lt h), abs_of_neg h, Int.ediv_neg, Int.ediv_self (ne_of_lt h)]
  · intro h
    unfold shapeReward
    rw [if_pos h]

/-- C3: every episode completed by `PlayOneEpisode` in update mode (the
runner rejects an environment that is already game over at start) records a
non-empty transition sequence in which exactly one transition has an absent
next frame, namely the last one; every earlier transition has a present
next frame. -/
theorem c3_terminal_transition {σ : Type} (cfg : RunCfg σ) (s0 : σ) (eps : ℚ)
    (fuel : Nat) (res : EpState σ)
    (hrun : PlayOneEpisode cfg s0 eps true fuel = some res) :
    res.episode ≠ [] ∧
    (∃ pre lst, res.episode = pre ++ [lst] ∧ lst.next = none ∧
      ∀ t ∈ pre, t.next ≠ none) ∧
    (res.episode.countP (fun t => decide (t.next = none))) = 1 := by
  have h := playOneEpisode_inv cfg s0 eps true fuel res
    (fun st =>
      (cfg.env.game_over st.env = false → ∀ t ∈ st.episode, t.next ≠ none) ∧
      (cfg.env.game_over st.env = true → st.episode ≠ [] ∧
        ∃ pre lst, st.episode = pre ++ [lst] ∧ lst.next = none ∧
          ∀ t ∈ pre, t.next ≠ none))
    (by
      intro hg0
      constructor
      · intro _
        simp [initState]
      · intro hg1
        rw [initState] at hg1
        simp only at hg1
        rw [hg0] at hg1
        exact absurd hg1 (by simp))
    (by
      intro st hInv hg
      have hall : ∀ t ∈ st.episode, t.next ≠ none := hInv.1 hg
      rw [stepBody_true_episode] at *
      constructor
      · intro hg2
        rw [stepBody_env] at hg2
        intro t ht
        rcases List.mem_append.mp ht with h1 | h1
        · exact hall t h1
        · have ht2 : t = transitionOf cfg eps true st := by simpa using h1
          rw [ht2]
          intro hnone
          have hgo := (transitionOf_next_none cfg eps true st).mp hnone
          rw [hgo] at hg2
          exact absurd hg2 (by simp)
      · intro hg2
        rw [stepBody_env] at hg2
        refine ⟨by simp, st.episode, transitionOf cfg eps true st, rfl, ?_, hall⟩
        exact (transitionOf_next_none cfg eps true st).mpr hg2)
    hrun
  obtain ⟨⟨_, hshape⟩, hover⟩ := h
  obtain ⟨hne, pre, lst, heq, hlst, hpre⟩ := hshape hover
  refine ⟨hne, ⟨pre, lst, heq, hlst, hpre⟩, ?_⟩
  rw [heq, List.countP_append]
  have h0 : pre.countP (fun t => decide (t.next = none)) = 0 := by
    rw [List.countP_eq_zero]
    intro a ha
    simpa using hpre a ha
  rw [h0]
  simp [hlst, List.countP_cons]

/-! ## Frame stack lemmas -/

theorem trimStack_eq_drop (W : Nat) (l : List Nat) :
    trimStack W l = l.drop (l.length - W) := by
  induction l with
  | nil => simp [trimStack]
  | cons x xs ih =>
    rw [trimStack]
    split
    · rename_i h
      rw [ih, List.length_cons]
      have h2 : xs.length + 1 - W = (xs.length - W) + 1 := by omega
      rw [h2, List.drop_succ_cons]
    · rename_i h
      rw [List.length_cons]
      have h2 : xs.length + 1 - W = 0 := by omega
      rw [h2, List.drop_zero]

theorem trimStack_trim_append (W : Nat) (l : List Nat) (x : Nat) :
    trimStack W (trimStack W l ++ [x]) = trimStack W (l ++ [x]) := by
  rw [trimStack_eq_drop W l]
  by_cases hW : l.length ≤ W
  · have h0 : l.length - W = 0 := by omega
    rw [h0, List.drop_zero]
  · have hd : l.length - W ≤ l.length := by omega
    rw [trimStack_eq_drop, trimStack_eq_drop]
    have hlen : (l.drop (l.length - W) ++ [x]).length = W + 1 := by
      rw [List.length_append, List.length_drop]
      simp only [List.length_singleton]
      omega
    rw [hlen]
    have h1 : W + 1 - W = 1 := by omega
    rw [h1]
    have h2 : (l ++ [x]).length - W = (l.length - W) + 1 := by
      rw [List.length_append]
      simp only [List.length_singleton]
      omega
    rw [h2]
    rw [← List.drop_append_of_le_length hd]
    rw [← List.drop_drop]

/-- C8: in every step of `PlayOneEpisode`, a learning update
(`dqn.UpdateRandom()`) is invoked if and only if the run is in update mode,
the replay occupancy strictly exceeds the configured memory threshold, and
the step counter since episode start is a multiple of the configured update
frequency (and the step lies within the episode). -/
theorem c8_learning_trigger {σ : Type} (cfg : RunCfg σ) (s0 : σ) (eps : ℚ)
    (update : Bool) (fuel : Nat) (res : EpState σ) (k : Nat)
    (hrun : PlayOneEpisode cfg s0 eps update fuel = some res) :
    k ∈ res.updatesAt ↔
      (update = true ∧ cfg.memory_size > cfg.memory_threshold ∧
        k % cfg.update_frequency = 0 ∧ k < res.frame) := by
  have h := playOneEpisode_inv cfg s0 eps update fuel res
    (fun st => st.updatesAt =
      cond update
        ((List.range st.frame).filter
          (fun j => decide (cfg.memory_size > cfg.memory_threshold ∧
            j % cfg.update_frequency = 0)))
        [])
    (by intro _; cases update <;> simp [initState])
    (by
      intro st hInv hg
      cases update
      · rw [stepBody_false_updatesAt, stepBody_frame]
        simpa using hInv
      · rw [stepBody_true_updatesAt, stepBody_frame]
        simp only [cond_true] at hInv ⊢
        rw [List.range_succ, List.filter_append, hInv]
        by_cases hp : cfg.memory_size > cfg.memory_threshold ∧
            st.frame % cfg.update_frequency = 0
        · rw [if_pos hp]
          simp [hp]
        · rw [if_neg hp]
          simp [hp])
    hrun
  rw [h.1]
  cases update
  · simp
  · simp only [cond_true, List.mem_filter, List.mem_range, decide_eq_true_eq]
    constructor
    · rintro ⟨h1, h2, h3⟩
      exact ⟨trivial, h2, h3, h1⟩
    · rintro ⟨_, h2, h3, h1⟩
      exact ⟨h1, h2, h3⟩

/-- C9: throughout `PlayOneEpisode`, at every point of action selection the
frame stack holds at most `frames_per_timestep` (W) references, it is the
suffix of the chronologically ordered list of all frames pushed so far
(oldest entries evicted first), and once at least W frames have been pushed
it holds exactly the W most recent ones. -/
theorem c9_frame_stack_window {σ : Type} (cfg : RunCfg σ) (s0 : σ) (eps : ℚ)
    (update : Bool) (fuel : Nat) (res : EpState σ)
    (hrun : PlayOneEpisode cfg s0 eps update fuel = some res)
    (p : List Nat × List Nat) (hp : p ∈ res.stacksLog) :
    p.1 = p.2.drop (p.2.length - cfg.frames_per_timestep) ∧
    p.1.length ≤ cfg.frames_per_timestep ∧
    p.1 <:+ p.2 ∧
    (cfg.frames_per_timestep ≤ p.2.length →
      p.1.length = cfg.frames_per_timestep) := by
  have h := playOneEpisode_inv cfg s0 eps update fuel res
    (fun st => st.past_frames = trimStack cfg.frames_per_timestep st.pushed ∧
      ∀ q ∈ st.stacksLog, q.1 = trimStack cfg.frames_per_timestep q.2)
    (by intro _; exact ⟨rfl, by simp [initState]⟩)
    (by
      intro st hInv hg
      obtain ⟨h1, h2⟩ := hInv
      constructor
      · rw [stepBody_past_frames, stepBody_pushed]
        unfold stackOf
        rw [h1, trimStack_trim_append]
      · rw [stepBody_stacksLog]
        intro q hq
        rcases List.mem_append.mp hq with hq1 | hq1
        · exact h2 q hq1
        · have hq2 : q = (stackOf cfg update st, st.pushed ++ [curOf cfg update st]) := by
            simpa using hq1
          rw [hq2]
          unfold stackOf
          rw [h1, trimStack_trim_append])
    hrun
  have hq := h.1.2 p hp
  rw [trimStack_eq_drop] at hq
  refine ⟨hq, ?_, ?_, ?_⟩
  · rw [hq, List.length_drop]
    omega
  · rw [hq]
    exact List.drop_suffix _ _
  · intro hW
    rw [hq, List.length_drop]
    omega

/-! ## Orchestrator lemmas -/

/-- After an orchestrator step, the recorded last-evaluation iteration
never exceeds the (non-decreasing) iteration counter. -/
theorem orchStep_le (cfg : OrchCfg) (st : OrchState)
    (hle : st.last_eval_iter ≤ st.iter) :
    (orchStep cfg st).last_eval_iter ≤ (orchStep cfg st).iter := by
  unfold orchStep
  dsimp only
  split
  · split <;> simp
  · simp
    omega

/-- Whenever the training loop terminates from a state whose
last-evaluation iteration does not exceed the iteration counter, the
post-loop final evaluation block runs. -/
theorem orchRun_final (cfg : OrchCfg) :
    ∀ (fuel : Nat) (st : OrchState) (r : OrchState × Bool),
      st.last_eval_iter ≤ st.iter → orchRun cfg fuel st = some r →
      r.2 = true := by
  intro fuel
  induction fuel with
  | zero => intro st r _ h; exact absurd h (by simp [orchRun])
  | succ n ih =>
    intro st r hle h
    rw [orchRun] at h
    split at h
    · exact ih _ r (orchStep_le cfg st hle) h
    · cases h
      rfl

/-! ## Witnesses and concrete evaluations -/

/-- Witness for C2 over the life-losing environment `c2env`: the recorded
episode rewards are [-1, 1] (the +5 score of the life-losing first step is
overridden to -1). -/
theorem c2_shaped_reward_witness :
    PlayOneEpisode c2cfg 0 0 true 5 = some c2res ∧
    ((∀ t ∈ c2res.episode, t.reward = -1 ∨ t.reward = 0 ∨ t.reward = 1) ∧
     ((rewardOf c2cfg 0 true (initState c2cfg 0)).1 = -1 ∨
      (rewardOf c2cfg 0 true (initState c2cfg 0)).1 = 0 ∨
      (rewardOf c2cfg 0 true (initState c2cfg 0)).1 = 1) ∧
     (c2cfg.env.lives (actedOf c2cfg 0 true (initState c2cfg 0)).2 <
        (initState c2cfg 0).remaining_lives →
      rewardOf c2cfg 0 true (initState c2cfg 0) =
        (-1, c2cfg.env.lives (actedOf c2cfg 0 true (initState c2cfg 0)).2)) ∧
     (¬ c2cfg.env.lives (actedOf c2cfg 0 true (initState c2cfg 0)).2 <
        (initState c2cfg 0).remaining_lives →
      rewardOf c2cfg 0 true (initState c2cfg 0) =
        (shapeReward (actedOf c2cfg 0 true (initState c2cfg 0)).1,
          (initState c2cfg 0).remaining_lives)) ∧
     ((0 < (5 : ℤ) → shapeReward 5 = 1) ∧ ((5 : ℤ) < 0 → shapeReward 5 = -1) ∧
      ((5 : ℤ) = 0 → shapeReward 5 = 0))) :=
  ⟨by decide, c2_shaped_reward c2cfg 0 0 true 5 c2res (by decide) (initState c2cfg 0) 5⟩

/-- Witness for C3: the two-step `c2cfg` episode has exactly one
absent-next transition, at the end. -/
theorem c3_terminal_transition_witness :
    PlayOneEpisode c2cfg 0 0 true 5 = some c2res ∧
    (c2res.episode ≠ [] ∧
     (∃ pre lst, c2res.episode = pre ++ [lst] ∧ lst.next = none ∧
       ∀ t ∈ pre, t.next ≠ none) ∧
     (c2res.episode.countP (fun t => decide (t.next = none))) = 1) :=
  ⟨by decide, c3_terminal_transition c2cfg 0 0 5 c2res (by decide)⟩

/-- C4 (code evaluation at the failing input): with `obscure_size = 1` in
update mode, the source obscures `current_frame` instead of the freshly
captured `next_frame` (line 138), so the next frame reaches the following
iteration unobscured.  Concretely over `c4cfg`: the transition of step 0
stores frame 1 as its next frame, yet the agent input at step 1 is frame 1
with the mask not applied (`obscured = false`), and the final store shows
frame 2 (the next frame of the last step) never obscured; the mask lands on
each frame only one iteration late, via the shared reference held as
`current_frame`. -/
theorem c4_obscure_applied_to_current_frame :
    c4cfg.obscure_size > 0 ∧
    (PlayOneEpisode c4cfg 0 0 true 5).map EpState.inputsLog =
      some [[⟨0, true⟩], [⟨1, false⟩]] ∧
    (PlayOneEpisode c4cfg 0 0 true 5).map EpState.episode =
      some [⟨0, 0, 0, some 1⟩, ⟨1, 0, 0, none⟩] ∧
    (PlayOneEpisode c4cfg 0 0 true 5).map EpState.store =
      some [⟨0, true⟩, ⟨1, true⟩, ⟨2, false⟩] :=
  ⟨by decide, by decide, by decide, by decide⟩

/-- C5 (code evaluation at the failing input): with `repeat_games = 3` and
an environment whose episode scores 10, `Evaluate` plays exactly one
episode and reports average 10 with a zero standard deviation, instead of
playing three episodes; the spec scenario (three scores 10, 20, 30 with
mean 20 and sample stddev 10 over the actual runs) is unreachable. -/
theorem c5_evaluate_single_episode :
    Evaluate c5cfg 0 (1/20) 3 9 =
      some { scores := [10], avg_score := 10, stddevSq := 0 } := by
  have hrun : PlayOneEpisode c5cfg 0 (1/20) false 9 = some c5run := by decide
  have hts : c5run.total_score = 10 := by decide
  unfold Evaluate
  rw [hrun]
  dsimp only
  rw [hts]
  norm_num

/-- C10: every call to `Evaluate` plays exactly one episode, independent of
the configured `repeat_games`, and the reported average equals that single
episode total score; with a single sample the squared-deviation sum
vanishes, so the value under the square root is 0 whatever the
`repeat_games - 1` denominator of line 176 (reflected verbatim in the
`Evaluate` embedding) evaluates to. -/
theorem c10_evaluate_plays_one_episode {σ : Type} (cfg : RunCfg σ) (s0 : σ)
    (eps : ℚ) (rg : ℤ) (fuel : Nat) (r : EvalReport)
    (h : Evaluate cfg s0 eps rg fuel = some r) :
    r.scores.length = 1 ∧
    (∃ st, PlayOneEpisode cfg s0 eps false fuel = some st ∧
      r.scores = [st.total_score] ∧ r.avg_score = (st.total_score : ℚ)) ∧
    r.stddevSq = 0 := by
  rw [Evaluate] at h
  split at h
  · exact absurd h (by simp)
  · rename_i st hst
    cases h
    refine ⟨rfl, ⟨st, hst, rfl, ?_⟩, ?_⟩
    · show ((0 : ℚ) + (st.total_score : ℚ)) / (([st.total_score].length : Nat) : ℚ) = (st.total_score : ℚ)
      simp
    · show ((0 : ℚ) + ((st.total_score : ℚ) - (0 + (st.total_score : ℚ)) / (([st.total_score].length : Nat) : ℚ)) *
        ((st.total_score : ℚ) - (0 + (st.total_score : ℚ)) / (([st.total_score].length : Nat) : ℚ))) /
        ((rg : ℚ) - 1) = 0
      simp

/-- Concrete evaluation for the C10 witness: over `c10cfg` (episode total
14) with `repeat_games = 10`, `Evaluate` reports scores [14], average 14,
zero squared deviation. -/
theorem c10_evaluate_concrete :
    Evaluate c10cfg 0 (1/20) 10 9 = some ⟨[14], 14, 0⟩ := by
  have hrun : PlayOneEpisode c10cfg 0 (1/20) false 9 = some c10run := by decide
  have hts : c10run.total_score = 14 := by decide
  unfold Evaluate
  rw [hrun]
  dsimp only
  rw [hts]
  norm_num

/-- Witness for C10 at `c10cfg` with `repeat_games = 10`. -/
theorem c10_evaluate_plays_one_episode_witness :
    Evaluate c10cfg 0 (1/20) 10 9 = some (⟨[14], 14, 0⟩ : EvalReport) ∧
    ((⟨[14], 14, 0⟩ : EvalReport).scores.length = 1 ∧
     (∃ st, PlayOneEpisode c10cfg 0 (1/20) false 9 = some st ∧
       (⟨[14], 14, 0⟩ : EvalReport).scores = [st.total_score] ∧
       (⟨[14], 14, 0⟩ : EvalReport).avg_score = (st.total_score : ℚ)) ∧
     (⟨[14], 14, 0⟩ : EvalReport).stddevSq = 0) :=
  ⟨c10_evaluate_concrete,
    c10_evaluate_plays_one_episode c10cfg 0 (1/20) 10 9 ⟨[14], 14, 0⟩
      c10_evaluate_concrete⟩

/-- C6 counterexample: over `c6cfg` the single episode lands the iteration
counter exactly on the budget (10); the periodic trigger fires there, so an
in-loop evaluation is recorded at the final iteration (`evalsAt = [10]`,
`last_eval_iter = 10 = iter`), and the post-loop block nevertheless runs a
second evaluation and checkpoint (`evalCount = 2`, flag `true`) because the
guard of line 339 is `>=`, not `>`. -/
theorem c6_final_eval_counterexample :
    orchRun c6cfg 3 (orchInit 0 0) =
      some ({ iter := 10, last_eval_iter := 10, episode := 1, evalCount := 2,
              best_score := 0, evalsAt := [10], hiSnapshots := [],
              rollingSnapshots := 2 }, true) := by decide

/-- C6 amended: the final evaluation and checkpoint after the loop are
performed if and only if the iteration counter is at least the recorded
last-evaluation iteration, which always holds (the counter never decreases
and `last_eval_iter` stores an earlier reading), so one final evaluation
and checkpoint always run — even when an in-loop evaluation already
happened at the final iteration. -/
theorem c6_final_eval_amended (cfg : OrchCfg) (fuel iter0 : Nat) (best0 : ℚ)
    (r : OrchState × Bool)
    (h : orchRun cfg fuel (orchInit iter0 best0) = some r) :
    r.2 = true :=
  orchRun_final cfg fuel (orchInit iter0 best0) r (Nat.zero_le _) h

/-- Witness for the amended C6 at the `c6cfg` run. -/
theorem c6_final_eval_amended_witness :
    orchRun c6cfg 3 (orchInit 0 0) = some c6res ∧ c6res.2 = true :=
  ⟨by decide, c6_final_eval_amended c6cfg 3 0 0 c6res (by decide)⟩

/-- C7: in the training loop an evaluation is triggered after an episode if
and only if (a) the episode score strictly exceeds the current best AND the
iteration count has reached the exploration decay horizon, or (b) the
iterations since the last evaluation meet or exceed the evaluation
frequency; on trigger, the best score is updated and a best-score
checkpoint written exactly when the evaluation aggregate strictly exceeds
the current best, the rolling checkpoint is written unconditionally, and
the last-evaluation iteration is recorded; without a trigger, none of these
change. -/
theorem c7_evaluation_trigger (cfg : OrchCfg) (st : OrchState)
    (hle : st.last_eval_iter ≤ st.iter) :
    ((orchStep cfg st).evalCount = st.evalCount + 1 ↔
      ((cfg.episodeScore st.episode > st.best_score ∧
        st.iter + cfg.episodeIters st.episode ≥ cfg.explore) ∨
       cfg.evaluate_freq ≤ (st.iter + cfg.episodeIters st.episode) - st.last_eval_iter)) ∧
    ((orchStep cfg st).evalCount = st.evalCount + 1 →
      (orchStep cfg st).last_eval_iter = st.iter + cfg.episodeIters st.episode ∧
      (orchStep cfg st).rollingSnapshots = st.rollingSnapshots + 1 ∧
      (cfg.evalScore st.evalCount > st.best_score →
        (orchStep cfg st).best_score = cfg.evalScore st.evalCount ∧
        (orchStep cfg st).hiSnapshots = st.hiSnapshots ++ [cfg.evalScore st.evalCount]) ∧
      (¬ cfg.evalScore st.evalCount > st.best_score →
        (orchStep cfg st).best_score = st.best_score ∧
        (orchStep cfg st).hiSnapshots = st.hiSnapshots)) ∧
    ((orchStep cfg st).evalCount = st.evalCount →
      (orchStep cfg st).last_eval_iter = st.last_eval_iter ∧
      (orchStep cfg st).rollingSnapshots = st.rollingSnapshots ∧
      (orchStep cfg st).best_score = st.best_score ∧
      (orchStep cfg st).hiSnapshots = st.hiSnapshots) := by
  unfold orchStep
  dsimp only
  split
  · rename_i htrig
    split
    · rename_i havg
      refine ⟨?_, ?_, ?_⟩
      · constructor
        · intro _
          rcases htrig with h1 | h1
          · left
            exact h1
          · right
            omega
        · intro _
          rfl
      · intro _
        refine ⟨rfl, rfl, ?_, ?_⟩
        · intro _
          exact ⟨rfl, rfl⟩
        · intro hn
          exact absurd havg hn
      · intro hc
        simp at hc
    · rename_i havg
      refine ⟨?_, ?_, ?_⟩
      · constructor
        · intro _
          rcases htrig with h1 | h1
          · left
            exact h1
          · right
            omega
        · intro _
          rfl
      · intro _
        refine ⟨rfl, rfl, ?_, ?_⟩
        · intro hp
          exact absurd hp havg
        · intro _
          exact ⟨rfl, rfl⟩
      · intro hc
        simp at hc
  · rename_i htrig
    refine ⟨?_, ?_, ?_⟩
    · constructor
      · intro hc
        simp at hc
      · intro hc
        rcases hc with h1 | h1
        · exact absurd (Or.inl h1) htrig
        · exact absurd (Or.inr (by omega)) htrig
    · intro hc
      simp at hc
    · intro _
      exact ⟨rfl, rfl, rfl, rfl⟩

/-- Witness for C7 at `c7cfg` from the state `c7st` (iteration 4): the
score condition triggers, the aggregate beats the best. -/
theorem c7_evaluation_trigger_witness :
    c7st.last_eval_iter ≤ c7st.iter ∧
    (((orchStep c7cfg c7st).evalCount = c7st.evalCount + 1 ↔
       ((c7cfg.episodeScore c7st.episode > c7st.best_score ∧
         c7st.iter + c7cfg.episodeIters c7st.episode ≥ c7cfg.explore) ∨
        c7cfg.evaluate_freq ≤ (c7st.iter + c7cfg.episodeIters c7st.episode) - c7st.last_eval_iter)) ∧
     ((orchStep c7cfg c7st).evalCount = c7st.evalCount + 1 →
       (orchStep c7cfg c7st).last_eval_iter = c7st.iter + c7cfg.episodeIters c7st.episode ∧
       (orchStep c7cfg c7st).rollingSnapshots = c7st.rollingSnapshots + 1 ∧
       (c7cfg.evalScore c7st.evalCount > c7st.best_score →
         (orchStep c7cfg c7st).best_score = c7cfg.evalScore c7st.evalCount ∧
         (orchStep c7cfg c7st).hiSnapshots = c7st.hiSnapshots ++ [c7cfg.evalScore c7st.evalCount]) ∧
       (¬ c7cfg.evalScore c7st.evalCount > c7st.best_score →
         (orchStep c7cfg c7st).best_score = c7st.best_score ∧
         (orchStep c7cfg c7st).hiSnapshots = c7st.hiSnapshots)) ∧
     ((orchStep c7cfg c7st).evalCount = c7st.evalCount →
       (orchStep c7cfg c7st).last_eval_iter = c7st.last_eval_iter ∧
       (orchStep c7cfg c7st).rollingSnapshots = c7st.rollingSnapshots ∧
       (orchStep c7cfg c7st).best_score = c7st.best_score ∧
       (orchStep c7cfg c7st).hiSnapshots = c7st.hiSnapshots)) :=
  ⟨by decide, c7_evaluation_trigger c7cfg c7st (by decide)⟩

/-- Witness for C8: over `c8cfg` (occupancy 1 > threshold 0, update
frequency 2, three steps) updates run exactly at steps 0 and 2; step 2 is
in the log. -/
theorem c8_learning_trigger_witness :
    PlayOneEpisode c8cfg 0 0 true 9 = some c8res ∧
    (2 ∈ c8res.updatesAt ↔
      (true = true ∧ c8cfg.memory_size > c8cfg.memory_threshold ∧
        2 % c8cfg.update_frequency = 0 ∧ 2 < c8res.frame)) :=
  ⟨by decide, c8_learning_trigger c8cfg 0 0 true 9 c8res 2 (by decide)⟩

/-- Witness for C9: at step 2 of the `c8cfg` run (window size 2), the
recorded stack is [1, 2], the last two of the three pushed frames. -/
theorem c9_frame_stack_window_witness :
    (PlayOneEpisode c8cfg 0 0 true 9 = some c8res ∧
     (([1, 2], [0, 1, 2]) : List Nat × List Nat) ∈ c8res.stacksLog) ∧
    (([1, 2] : List Nat) = ([0, 1, 2] : List Nat).drop
        (([0, 1, 2] : List Nat).length - c8cfg.frames_per_timestep) ∧
     ([1, 2] : List Nat).length ≤ c8cfg.frames_per_timestep ∧
     ([1, 2] : List Nat) <:+ ([0, 1, 2] : List Nat) ∧
     (c8cfg.frames_per_timestep ≤ ([0, 1, 2] : List Nat).length →
       ([1, 2] : List Nat).length = c8cfg.frames_per_timestep)) :=
  ⟨⟨by decide, by decide⟩,
    c9_frame_stack_window c8cfg 0 0 true 9 c8res (by decide)
      (([1, 2], [0, 1, 2]) : List Nat × List Nat) (by decide)⟩

end DQN
